import Mathlib

/-!
Shallow embedding of the reploit-backend ingestion pipeline and retrieval
agent loop, together with theorems settling the frozen claims about it.

Source files embedded:
  - app/ai_core/agent.py            (tool_router, tool_executor, should_continue)
  - app/vector_db/vector_store_manager.py
        (generate_docstrings_in_batch, generate_and_store_embeddings,
         clear_data_source_data)
  - app/knowledge_graph/kg_manager.py
        (add_file_node, add_function_node, clear_data_source_data, close)
  - app/tasks/repo_ingestion_tasks.py (process_data_source_for_ai)

External services (language model, embedding service, git hosting, the
Neo4j and Pinecone backends, the database session) are modelled as
oracles passed in explicitly; everything the Python code itself computes
is translated directly.
-/

namespace Reploit

/-! ## Python dictionaries of string arguments

Tool-call argument dictionaries are modelled as partial maps from key to
value; item assignment is pointwise update. -/

/-- A Python dict holding the string arguments of a tool call. -/
def Args : Type := String → Option String

/-- Item assignment: d[k] = v. -/
def dictSet (d : Args) (k : String) (v : String) : Args :=
  fun k2 => if k2 = k then some v else d k2

/-! ## Messages and agent state (app/ai_core/agent.py) -/

/-- One tool call emitted by the model: name, arguments dict, call id. -/
structure ToolCall where
  name : String
  args : Args
  callId : String

/-- A conversation message. An ai message carries the list of tool calls
the model emitted (the additional_kwargs key tool_calls is present
exactly when that list is nonempty). -/
inductive Msg where
  | human (content : String)
  | ai (content : String) (tool_calls : List ToolCall)
  | tool (content : String) (tool_call_id : String)

/-- The AgentState TypedDict: accumulated messages plus the
data_source_id of the repository under analysis. -/
structure AgentState where
  messages : List Msg
  data_source_id : String

/-- The tool calls attached to a message; non-ai messages have none. -/
def Msg.toolCalls : Msg → List ToolCall
  | .ai _ tcs => tcs
  | _ => []

/-- The names of the three registered tools (all_tools in
app/ai_core/tools.py). -/
def toolNames : List String :=
  ["knowledge_graph_search", "semantic_code_search", "file_reader_tool"]

/-- The message list tool_router hands to the tool-selecting model: the
source takes state["messages"][-1] only and invokes the model on the
singleton list [query]. The empty-conversation branch is a modelling
artifact (Python would raise an IndexError); the router is only ever
entered with a nonempty conversation. -/
def routerInput (state : AgentState) : List Msg :=
  match state.messages.getLast? with
  | some q => [q]
  | none => []

/-- The tool_router node: calls the tool-bound model on routerInput and
returns the singleton message-list delta that LangGraph appends to the
conversation. The model is an oracle from a message list to its reply. -/
def tool_router (llm : List Msg → Msg) (state : AgentState) : List Msg :=
  [llm (routerInput state)]

/-- Outcome of the conditional edge after the router. -/
inductive NextStep where
  | use_tool
  | stop
deriving DecidableEq

/-- The should_continue edge: go to the executor exactly when the last
message carries tool calls, otherwise the conversation ends. -/
def should_continue (state : AgentState) : NextStep :=
  match state.messages.getLast? with
  | some (.ai _ (_ :: _)) => .use_tool
  | _ => .stop

/-- The tool_executor node. It reads the last message, takes
tool_calls[0], looks the tool up by name in all_tools, overwrites the
data_source_id argument with the one stored in the agent state, invokes
the tool (an oracle from name and arguments to output text) and returns
the singleton ToolMessage delta. The none branches are the paths on
which Python would raise (IndexError on an empty tool-call list,
KeyError on an unknown tool name, AttributeError on a non-ai message or
empty conversation). -/
def tool_executor (impl : String → Args → String) (state : AgentState) :
    Option (List Msg) :=
  match state.messages.getLast? with
  | none => none
  | some m =>
    match m.toolCalls with
    | [] => none
    | tc :: _ =>
      if toolNames.contains tc.name then
        let toolArgs := dictSet tc.args "data_source_id" state.data_source_id
        some [Msg.tool (impl tc.name toolArgs) tc.callId]
      else none

/-! ## Docstring batch generation
(VectorStoreManager.generate_docstrings_in_batch) -/

/-- A JSON value as decoded by json.loads, to the depth the pipeline
inspects it. -/
inductive Json where
  | jstr (s : String)
  | jnum (n : Int)
  | jarr (elems : List Json)
  | jother

/-- Whether a decoded JSON value is a string. -/
def Json.isStr : Json → Bool
  | .jstr _ => true
  | _ => false

/-- A parsed function record as produced by parse_python_file, before
the ingestion task attaches the file path. -/
structure FnData where
  name : String
  args : List String
  docstring : String
  source_code : String
  file_path : String
deriving DecidableEq

/-- Placeholder returned when the model reply is not a list or has the
wrong length. -/
def invalidFormatPlaceholder : String :=
  "# AI-generated docstring failed: Invalid format."

/-- Placeholder returned when the model call or JSON decoding raises. -/
def apiErrorPlaceholder : String :=
  "# AI-generated docstring failed due to an API error."

/-- The outcome of the generate_content call followed by json.loads on
the cleaned reply: either some exception was raised along the way, or a
decoded JSON value. -/
def ModelReply : Type := Except Unit Json

/-- generate_docstrings_in_batch. Empty input returns [] before any
model call. Otherwise the model is called once; a raised exception
yields the API-error placeholder per entity; a decoded reply is
returned verbatim when it is a list of exactly matching length and
replaced by the invalid-format placeholder per entity otherwise. The
reply is a parameter so the handling code is stated for an arbitrary
outcome of the generate-and-decode step; in this source the name genai
is never imported in vector_store_manager.py, so evaluating
genai.GenerativeModel raises NameError inside the try on every call
and the only reply the program realizes is genaiDocReply. -/
def generate_docstrings_in_batch (functions_to_document : List FnData)
    (reply : ModelReply) : List Json :=
  if functions_to_document.isEmpty then []
  else
    match reply with
    | .error _ =>
        functions_to_document.map (fun _ => Json.jstr apiErrorPlaceholder)
    | .ok j =>
        match j with
        | .jarr elems =>
            if elems.length = functions_to_document.length then elems
            else functions_to_document.map
              (fun _ => Json.jstr invalidFormatPlaceholder)
        | _ =>
            functions_to_document.map
              (fun _ => Json.jstr invalidFormatPlaceholder)

/-- The reply of the model-call step as the program actually runs it:
genai is never imported in vector_store_manager.py (only
langchain_google_genai names are), so genai.GenerativeModel at line 113
raises NameError inside the try and the except path always runs. -/
def genaiDocReply : ModelReply := .error ()

/-! ## Semantic index (Pinecone) state and
VectorStoreManager.generate_and_store_embeddings -/

/-- The metadata stored with each vector: file path and function name. -/
structure VMeta where
  file_path : String
  function_name : String
deriving DecidableEq

/-- One stored vector record. Embeddings are opaque provider outputs;
since the embedding call is deterministic in its input text, a vector is
represented by the text it embeds. -/
structure VRec where
  id : String
  values : String
  metadata : VMeta
deriving DecidableEq

/-- The vector index: a list of (namespace, record) pairs; the upsert
operation keeps ids unique within a namespace. -/
abbrev VDB : Type := List (String × VRec)

/-- Whether the index holds a record with this id in this namespace. -/
def vdbHas (st : VDB) (ns id : String) : Bool :=
  st.any (fun p => p.1 = ns && p.2.id = id)

/-- Pinecone upsert of one vector into a namespace: overwrite in place
when the id exists there, append otherwise. -/
def vdbUpsert (ns : String) (r : VRec) (st : VDB) : VDB :=
  if vdbHas st ns r.id then
    st.map (fun p => if p.1 = ns && p.2.id = r.id then (ns, r) else p)
  else st ++ [(ns, r)]

/-- index.upsert of a whole vectors list, first to last. -/
def vdbUpsertMany (ns : String) (rs : List VRec) (st : VDB) : VDB :=
  rs.foldl (fun s r => vdbUpsert ns r s) st

/-- VectorStoreManager.clear_data_source_data: delete every vector in
the namespace of the data source (delete_all within the namespace). -/
def vdbClear (ns : String) (st : VDB) : VDB :=
  st.filter (fun p => p.1 ≠ ns)

/-- The deterministic vector id built at line 166 of
vector_store_manager.py: data_source_id:file_path:function_name. -/
def vectorId (data_source_id : String) (m : VMeta) : String :=
  data_source_id ++ ":" ++ m.file_path ++ ":" ++ m.function_name

/-- The vector record built for one (chunk text, metadata) pair. -/
def mkVRec (data_source_id : String) (p : String × VMeta) : VRec :=
  { id := vectorId data_source_id p.2
    values := p.1
    metadata := p.2 }

/-- Consecutive slices of size bs, exactly the slices taken by
for i in range(0, len(l), bs). The bs = 0 branch is a modelling
artifact: Python range with step 0 raises before looping. -/
def chunksOf : Nat → List α → List (List α)
  | _, [] => []
  | 0, l => [l]
  | b + 1, x :: xs => (x :: xs.take b) :: chunksOf (b + 1) (xs.drop b)
termination_by _ l => l.length
decreasing_by
  simp only [List.length_drop, List.length_cons]
  omega

/-- The batch loop of generate_and_store_embeddings from batch index i
on: a batch whose embedding call fails (embedOk gives false) is skipped
with continue, a successful batch is upserted, and in both cases the
loop moves on to the next batch. -/
def embedBatchLoop (data_source_id : String) (embedOk : Nat → Bool) :
    List (List (String × VMeta)) → Nat → VDB → VDB
  | [], _, st => st
  | b :: rest, i, st =>
    embedBatchLoop data_source_id embedOk rest (i + 1)
      (if embedOk i then
        vdbUpsertMany data_source_id (b.map (mkVRec data_source_id)) st
      else st)

/-- VectorStoreManager.generate_and_store_embeddings: slice the chunk
texts and metadatas into batches of batch_size, embed each batch (the
outcome per batch index is the embedOk parameter; a failure is logged
and the batch skipped), and upsert each successful batch into the
namespace of the data source. The task always passes lists of equal
length, so slicing the two lists in step is slicing their zip. The
per-batch outcome is a parameter so the skip-and-continue handling is
stated for arbitrary outcomes; in this source genai is never imported,
so genai.embed_content at line 151 raises NameError on every batch and
the only instance the program realizes is genaiEmbedOk. -/
def generate_and_store_embeddings (batch_size : Nat) (embedOk : Nat → Bool)
    (text_chunks : List String) (metadatas : List VMeta)
    (data_source_id : String) (st : VDB) : VDB :=
  embedBatchLoop data_source_id embedOk
    (chunksOf batch_size (text_chunks.zip metadatas)) 0 st

/-- The per-batch embedding outcome as the program actually runs it:
genai is unbound in vector_store_manager.py, so every batch raises
NameError, is logged and skipped, and no batch ever succeeds — the
loop never reaches its upsert. -/
def genaiEmbedOk : Nat → Bool := fun _ => false

/-! ## Structural index (Neo4j) state and KnowledgeGraphManager -/

/-- The structural index: File nodes keyed by (path, dataSourceId),
Function nodes keyed by (name, file_path, dataSourceId), and DEFINES
edges between those keys. MERGE semantics make each list duplicate-free
along its key. -/
structure KG where
  files : List (String × String)
  funcs : List (String × String × String)
  defines : List ((String × String) × (String × String × String))
deriving DecidableEq

/-- The empty graph. -/
def KG.empty : KG := { files := [], funcs := [], defines := [] }

/-- Cypher MERGE: insert the key when absent, match (no change)
otherwise. -/
def mergeKey [DecidableEq α] (k : α) (l : List α) : List α :=
  if k ∈ l then l else l ++ [k]

/-- KnowledgeGraphManager.add_file_node: MERGE a File node keyed by
(path, dataSourceId). -/
def add_file_node (data_source_id file_path : String) (g : KG) : KG :=
  { g with files := mergeKey (file_path, data_source_id) g.files }

/-- KnowledgeGraphManager.add_function_node: MERGE the containing File
node, MERGE the Function node keyed by (name, file_path, dataSourceId),
and MERGE the DEFINES edge between them. -/
def add_function_node (data_source_id file_path function_name : String)
    (g : KG) : KG :=
  { files := mergeKey (file_path, data_source_id) g.files
    funcs := mergeKey (function_name, file_path, data_source_id) g.funcs
    defines := mergeKey ((file_path, data_source_id),
      (function_name, file_path, data_source_id)) g.defines }

/-- KnowledgeGraphManager.clear_data_source_data: MATCH every node
tagged with the dataSourceId and DETACH DELETE it, which also removes
every edge touching a deleted node. -/
def kgClear (data_source_id : String) (g : KG) : KG :=
  { files := g.files.filter (fun f => f.2 ≠ data_source_id)
    funcs := g.funcs.filter (fun f => f.2.2 ≠ data_source_id)
    defines := g.defines.filter
      (fun e => e.1.2 ≠ data_source_id ∧ e.2.2.2 ≠ data_source_id) }

/-- Exceptions the embedded pipeline can raise. -/
inductive PyErr where
  | recursionError
  | kgInitError
  | vsInitError
  | repoNameValueError
  | cloneError
deriving DecidableEq

/-- KnowledgeGraphManager.close as written at kg_manager.py lines 55-58:
if self._driver is set, call self.close() again — the method calls
itself, not the driver. The fuel argument is the Python recursion
limit; since _driver is always set after init, every call chain runs to
the limit and raises RecursionError, and the driver is never released. -/
def KnowledgeGraphManager.close (driverSet : Bool) : Nat → Except PyErr Unit
  | 0 => .error .recursionError
  | fuel + 1 => if driverSet then KnowledgeGraphManager.close driverSet fuel
                else .ok ()

/-! ## Parsing (app/code_parser/python_parser.py) and the ingestion task
(app/tasks/repo_ingestion_tasks.py, process_data_source_for_ai) -/

/-- A function record as parse_python_file builds it: name, argument
names, docstring (ast.get_docstring or the empty string, stripped), and
the raw source segment. -/
structure RawFn where
  name : String
  args : List String
  docstring : String
  source_code : String
deriving DecidableEq

/-- The per-file outcome inside the walk loop of the ingestion task.
parsed is a returned functions list (possibly empty); syntaxError is
parse_python_file returning None after catching a SyntaxError;
readError is an exception from opening, reading or parsing the file,
caught by the per-file try of the task and logged as a warning. -/
inductive ParseOutcome where
  | parsed (functions : List RawFn)
  | syntaxError
  | readError
deriving DecidableEq

/-- One .py file met by the snapshot walk (version-control and
dependency directories already skipped), with its relative path and the
outcome of reading and parsing it. -/
structure PyFile where
  relPath : String
  outcome : ParseOutcome

/-- The entities one file contributes: its parsed functions with the
relative file path attached, and nothing on a syntax or read failure. -/
def fileEntities (f : PyFile) : List FnData :=
  match f.outcome with
  | .parsed fns =>
      fns.map (fun r =>
        { name := r.name
          args := r.args
          docstring := r.docstring
          source_code := r.source_code
          file_path := f.relPath })
  | .syntaxError => []
  | .readError => []

/-- The all_functions_data list collected by the walk loop. -/
def extractAll (files : List PyFile) : List FnData :=
  files.foldr (fun f acc => fileEntities f ++ acc) []

/-- Python str() of a decoded JSON value, as applied when a generated
docstring is interpolated into the embedding text. The non-string,
non-number renderings are abbreviated; no theorem depends on them. -/
def Json.pyStr : Json → String
  | .jstr s => s
  | .jnum n => toString n
  | .jarr _ => "[...]"
  | .jother => "<json>"

/-- The merge-back loop after docstring generation: entity i of the
missing-documentation list receives generated_docs[i]. -/
def applyGeneratedDocs (fns : List FnData) (docs : List Json) : List FnData :=
  List.zipWith (fun f d => { f with docstring := d.pyStr }) fns docs

/-- The embedding text chunk built for one entity at lines 87-92 of
repo_ingestion_tasks.py. -/
def mkChunk (f : FnData) : String :=
  "Function: " ++ f.name ++ "\n" ++
  "File: " ++ f.file_path ++ "\n" ++
  "Arguments: " ++
    (if f.args.isEmpty then "None" else String.intercalate ", " f.args) ++
  "\n" ++ "Documentation:\n" ++ f.docstring

/-- The metadata dict built for one entity. -/
def metaOf (f : FnData) : VMeta :=
  { file_path := f.file_path, function_name := f.name }

/-- The KG population loop of phase 5: add_file_node then
add_function_node for every entity, in order. -/
def populateKG (data_source_id : String) (fns : List FnData) (g : KG) : KG :=
  fns.foldl
    (fun acc f => add_function_node data_source_id f.file_path f.name
      (add_file_node data_source_id f.file_path acc)) g

/-- The job status values the task writes. -/
inductive JobStatus where
  | indexed
  | failed
deriving DecidableEq

/-- One run environment for the task: the repository identity, the
behavior of every external collaborator, the configuration, and the
starting contents of the two indexes. The docReply and embedOk fields
parameterize the outcomes of the two genai call sites; since genai is
unbound in the source, the only values the program realizes are
genaiDocReply and genaiEmbedOk, and the theorems settling claims about
the program instantiate exactly these. -/
structure Env where
  data_source_id : String
  dataSourceFound : Bool
  staleSnapshot : Bool
  kgInitOk : Bool
  vsInitOk : Bool
  repo_full_name : Option String
  cloneOk : Bool
  files : List PyFile
  docGenEnabled : Bool
  docReply : ModelReply
  batch_size : Nat
  embedOk : Nat → Bool
  kg0 : KG
  vdb0 : VDB

/-- The mutable facts the try body threads: which managers were
constructed, whether the snapshot directory currently exists, the two
index states, the last committed job status, and whether the docstring
model was called. -/
structure BodySt where
  kgInited : Bool
  vsInited : Bool
  snapshotOnDisk : Bool
  kg : KG
  vdb : VDB
  statusWritten : Option JobStatus
  docGenCalled : Bool

/-- The body state before the try block runs. -/
def initBody (env : Env) : BodySt :=
  { kgInited := false, vsInited := false,
    snapshotOnDisk := env.staleSnapshot,
    kg := env.kg0, vdb := env.vdb0,
    statusWritten := none, docGenCalled := false }

/-- The try block of process_data_source_for_ai, phases 1 to 6: manager
construction, clearing both indexes, reading connection details,
removing a stale snapshot and cloning, walking and parsing, optional
docstring generation, index population, the embedding bulk write, and
the final status commit. Returns the side effects so far together with
the control outcome (normal completion or the exception raised). -/
def tryBody (env : Env) : BodySt × Except PyErr Unit :=
  let s0 := initBody env
  if ¬ env.kgInitOk then (s0, .error .kgInitError) else
  let s1 := { s0 with kgInited := true }
  if ¬ env.vsInitOk then (s1, .error .vsInitError) else
  let s2 := { s1 with
              vsInited := true
              kg := kgClear env.data_source_id s1.kg
              vdb := vdbClear env.data_source_id s1.vdb }
  match env.repo_full_name with
  | none => (s2, .error .repoNameValueError)
  | some _ =>
    let s3 := { s2 with snapshotOnDisk := false }
    if ¬ env.cloneOk then (s3, .error .cloneError) else
    let s4 := { s3 with snapshotOnDisk := true }
    let allFns := extractAll env.files
    let withDocs := allFns.filter (fun f => f.docstring ≠ "")
    let withoutDocs := allFns.filter (fun f => f.docstring = "")
    let genRuns := env.docGenEnabled && !withoutDocs.isEmpty
    let finalFns :=
      if genRuns then
        withDocs ++ applyGeneratedDocs withoutDocs
          (generate_docstrings_in_batch withoutDocs env.docReply)
      else withDocs ++ withoutDocs
    let s5 := { s4 with docGenCalled := genRuns }
    let s6 := { s5 with kg := populateKG env.data_source_id finalFns s5.kg }
    let chunks := finalFns.map mkChunk
    let metas := finalFns.map metaOf
    let vdbAfter := generate_and_store_embeddings env.batch_size
      env.embedOk chunks metas env.data_source_id s6.vdb
    let s7 := { s6 with vdb := if !chunks.isEmpty then vdbAfter else s6.vdb }
    ({ s7 with statusWritten := some .indexed }, .ok ())

/-- The two dictionaries the task can return. -/
inductive TaskRet where
  | notFoundRet
  | completedRet
deriving DecidableEq

/-- How one task invocation ends: a returned value, or an exception
propagated to the job queue. -/
inductive TaskOutcome where
  | returned (r : TaskRet)
  | raised (e : PyErr)
deriving DecidableEq

/-- Everything observable after one task invocation. -/
structure TaskResult where
  statusWritten : Option JobStatus
  outcome : TaskOutcome
  snapshotRemains : Bool
  driverClosed : Bool
  kg : KG
  vdb : VDB
  docGenCalled : Bool

/-- process_data_source_for_ai, whole control flow. A missing data
source returns early, before the try block. Otherwise the try body
runs; an exception is caught once at the boundary, the status is set to
failed and the same exception is re-raised. The finally block then
runs on every path: when the graph manager was constructed it calls
close, and an exception raised there replaces the pending outcome, so
the rmtree line is never reached; otherwise the snapshot directory is
removed if it exists. recLimit is the Python recursion limit consumed
by close. -/
def process_data_source_for_ai (env : Env) (recLimit : Nat) : TaskResult :=
  if ¬ env.dataSourceFound then
    { statusWritten := none, outcome := .returned .notFoundRet,
      snapshotRemains := env.staleSnapshot, driverClosed := false,
      kg := env.kg0, vdb := env.vdb0, docGenCalled := false }
  else
    let r := tryBody env
    let s := r.1
    let s2 : BodySt :=
      match r.2 with
      | .ok _ => s
      | .error _ => { s with statusWritten := some .failed }
    let pending : TaskOutcome :=
      match r.2 with
      | .ok _ => .returned .completedRet
      | .error e => .raised e
    if s2.kgInited then
      match KnowledgeGraphManager.close true recLimit with
      | .error e2 =>
        { statusWritten := s2.statusWritten, outcome := .raised e2,
          snapshotRemains := s2.snapshotOnDisk, driverClosed := false,
          kg := s2.kg, vdb := s2.vdb, docGenCalled := s2.docGenCalled }
      | .ok _ =>
        { statusWritten := s2.statusWritten, outcome := pending,
          snapshotRemains := false, driverClosed := true,
          kg := s2.kg, vdb := s2.vdb, docGenCalled := s2.docGenCalled }
    else
      { statusWritten := s2.statusWritten, outcome := pending,
        snapshotRemains := false, driverClosed := false,
        kg := s2.kg, vdb := s2.vdb, docGenCalled := s2.docGenCalled }

/-! ## Helper views of the try body success path

Named subterms of tryBody, used to state theorems about successful
runs. -/

/-- The entities that already carry documentation. -/
def withDocsOf (env : Env) : List FnData :=
  (extractAll env.files).filter (fun f => f.docstring ≠ "")

/-- The entities lacking documentation. -/
def withoutDocsOf (env : Env) : List FnData :=
  (extractAll env.files).filter (fun f => f.docstring = "")

/-- Whether the docstring-generation branch runs: the configuration
flag is on and at least one entity lacks documentation. -/
def genRunsOf (env : Env) : Bool :=
  env.docGenEnabled && !(withoutDocsOf env).isEmpty

/-- The final_functions_list of the task. -/
def finalFnsOf (env : Env) : List FnData :=
  if genRunsOf env then
    withDocsOf env ++ applyGeneratedDocs (withoutDocsOf env)
      (generate_docstrings_in_batch (withoutDocsOf env) env.docReply)
  else withDocsOf env ++ withoutDocsOf env

/-- The semantic index contents after a successful run. -/
def successVdbOf (env : Env) : VDB :=
  if !((finalFnsOf env).map mkChunk).isEmpty then
    generate_and_store_embeddings env.batch_size env.embedOk
      ((finalFnsOf env).map mkChunk) ((finalFnsOf env).map metaOf)
      env.data_source_id (vdbClear env.data_source_id env.vdb0)
  else vdbClear env.data_source_id env.vdb0

/-- The body state a successful run ends in. -/
def successBodyOf (env : Env) : BodySt :=
  { kgInited := true
    vsInited := true
    snapshotOnDisk := true
    kg := populateKG env.data_source_id (finalFnsOf env)
      (kgClear env.data_source_id env.kg0)
    vdb := successVdbOf env
    statusWritten := some .indexed
    docGenCalled := genRunsOf env }

/-- An environment whose external collaborators all behave: the data
source exists, both managers construct, the repository name is
configured and the clone succeeds. The snapshot contents, configuration
flags and per-batch provider behavior stay free. -/
def goodEnv (ds rn : String) (stale : Bool) (files : List PyFile)
    (flag : Bool) (reply : ModelReply) (bs : Nat) (eok : Nat → Bool)
    (kg0 : KG) (vdb0 : VDB) : Env :=
  Env.mk ds true stale true true (some rn) true files flag reply bs eok
    kg0 vdb0

/-! ## Concrete fixtures used by witnesses and counterexamples -/

/-- A sample parsed function lacking a docstring. -/
def rawAdd : RawFn :=
  { name := "add", args := ["a", "b"], docstring := ""
    source_code := "def add(a, b): return a + b" }

/-- The same function as a task entity located in good.py. -/
def fnAdd : FnData :=
  { name := "add", args := ["a", "b"], docstring := ""
    source_code := "def add(a, b): return a + b", file_path := "good.py" }

/-- A run environment in which every external collaborator behaves. -/
def happyEnv : Env :=
  { data_source_id := "repoA"
    dataSourceFound := true
    staleSnapshot := false
    kgInitOk := true
    vsInitOk := true
    repo_full_name := some "owner/repo"
    cloneOk := true
    files := [{ relPath := "good.py", outcome := .parsed [rawAdd] }]
    docGenEnabled := false
    docReply := .error ()
    batch_size := 100
    embedOk := fun _ => true
    kg0 := KG.empty
    vdb0 := [] }

/-- The same environment with a failing clone (phase 2 raises). -/
def cloneFailEnv : Env := { happyEnv with cloneOk := false }

/-- The same environment with one additional syntactically invalid
file in the snapshot. -/
def mixedEnv : Env :=
  { happyEnv with
    files := [{ relPath := "good.py", outcome := .parsed [rawAdd] },
              { relPath := "bad.py", outcome := .syntaxError }] }

/-- A sample tool implementation oracle: echoes the repository id seen
in the arguments. -/
def sampleImpl : String → Args → String :=
  fun n a => n ++ ":" ++ ((a "data_source_id").getD "none")

/-- Arguments in which the model smuggled a repository id. -/
def smuggleArgs : Args :=
  fun k => if k = "data_source_id" then some "other-repo" else none

/-- Arguments with no repository id at all. -/
def emptyArgs : Args := fun _ => none

/-! # Theorems -/

/-- C8: the claim says the whole accumulated conversation is given to
the tool-selecting model; in fact tool_router passes only the last
message, so on a two-message conversation the model input differs from
the conversation. -/
theorem c8_counterexample :
    routerInput ⟨[Msg.human "what does add do",
                  Msg.tool "observation" "1"], "repoA"⟩
      ≠ [Msg.human "what does add do", Msg.tool "observation" "1"] := by
  intro h
  exact absurd (congrArg List.length h) (by decide)

/-- C8 amended: in every Route step only the most recent message of the
conversation is handed to the tool-selecting model, and the router
output is the model reply; the step is terminal exactly when that reply
carries no tool calls. -/
theorem c8_router_input_is_last_message (llm : List Msg → Msg)
    (ms : List Msg) (m : Msg) (ds c : String) (tc : ToolCall)
    (tcs : List ToolCall) :
    tool_router llm ⟨ms ++ [m], ds⟩ = [llm [m]]
    ∧ should_continue ⟨ms ++ [Msg.ai c (tc :: tcs)], ds⟩ = .use_tool
    ∧ should_continue ⟨ms ++ [Msg.ai c []], ds⟩ = .stop
    ∧ should_continue ⟨ms ++ [Msg.human c], ds⟩ = .stop := by
  refine ⟨?_, ?_, ?_, ?_⟩ <;>
    simp [tool_router, routerInput, should_continue, List.getLast?_concat]

/-- C10: the executor runs only the first tool call of the router
reply — the result does not depend on the later tool calls — and, when
the named tool exists, appends exactly one tool observation. -/
theorem c10_only_first_tool_call_executes (impl : String → Args → String)
    (ds c cid name : String) (ms : List Msg) (a : Args)
    (rest1 rest2 : List ToolCall) :
    tool_executor impl ⟨ms ++ [Msg.ai c (⟨name, a, cid⟩ :: rest1)], ds⟩
      = tool_executor impl ⟨ms ++ [Msg.ai c (⟨name, a, cid⟩ :: rest2)], ds⟩
    ∧ (tool_executor impl
        ⟨ms ++ [Msg.ai c (⟨name, a, cid⟩ :: rest1)], ds⟩).map List.length
      = (if toolNames.contains name then some 1 else none) := by
  constructor
  · simp [tool_executor, List.getLast?_concat, Msg.toolCalls]
  · simp only [tool_executor, List.getLast?_concat, Msg.toolCalls]
    split <;> simp

/-- C5: the data_source_id argument every selected tool receives is the
one stored in the session state — the injection overwrites whatever the
model emitted — so the executor result is unchanged under any change of
the model-supplied repository identity. -/
theorem c5_repo_id_taken_from_session (impl : String → Args → String)
    (ds c cid name : String) (ms : List Msg) (a1 a2 : Args)
    (rest : List ToolCall)
    (h : ∀ k, k ≠ "data_source_id" → a1 k = a2 k) :
    tool_executor impl ⟨ms ++ [Msg.ai c (⟨name, a1, cid⟩ :: rest)], ds⟩
      = tool_executor impl ⟨ms ++ [Msg.ai c (⟨name, a2, cid⟩ :: rest)], ds⟩
    ∧ dictSet a1 "data_source_id" ds "data_source_id" = some ds := by
  have hargs : dictSet a1 "data_source_id" ds
      = dictSet a2 "data_source_id" ds := by
    funext k
    by_cases hk : k = "data_source_id"
    · simp [dictSet, hk]
    · simp [dictSet, hk, h k hk]
  constructor
  · simp [tool_executor, List.getLast?_concat, Msg.toolCalls, hargs]
  · simp [dictSet]

/-- C5 witness: a concrete Execute step in which the model smuggled a
foreign repository id gives the same result as one with no id at all,
and the injected dictionary carries the session repository id. -/
theorem c5_witness :
    tool_executor sampleImpl
        ⟨[Msg.ai "q" [⟨"file_reader_tool", smuggleArgs, "1"⟩]], "repoA"⟩
      = tool_executor sampleImpl
        ⟨[Msg.ai "q" [⟨"file_reader_tool", emptyArgs, "1"⟩]], "repoA"⟩
    ∧ dictSet smuggleArgs "data_source_id" "repoA" "data_source_id"
      = some "repoA" := by
  exact c5_repo_id_taken_from_session sampleImpl "repoA" "q" "1"
    "file_reader_tool" [] smuggleArgs emptyArgs []
    (fun k hk => by simp [smuggleArgs, emptyArgs, hk])

/-- C3: since genai is never imported, the batched model call raises
NameError on every non-empty input, so for every list of N entities the
function returns exactly the N API-error placeholder strings —
length-preserving and order-preserving, one placeholder string per
entity instead of failing; the reply-handling code as written is
length-preserving for every conceivable reply. -/
theorem c3_always_n_placeholder_strings (funcs : List FnData) :
    generate_docstrings_in_batch funcs genaiDocReply
      = funcs.map (fun _ => Json.jstr apiErrorPlaceholder)
    ∧ (generate_docstrings_in_batch funcs genaiDocReply).length
      = funcs.length
    ∧ (generate_docstrings_in_batch funcs genaiDocReply).all Json.isStr
      = true
    ∧ ∀ reply : ModelReply,
        (generate_docstrings_in_batch funcs reply).length = funcs.length := by
  have h1 : generate_docstrings_in_batch funcs genaiDocReply
      = funcs.map (fun _ => Json.jstr apiErrorPlaceholder) := by
    cases funcs with
    | nil => rfl
    | cons f fs => rfl
  refine ⟨h1, ?_, ?_, ?_⟩
  · rw [h1, List.length_map]
  · rw [h1]
    induction funcs with
    | nil => rfl
    | cons f fs ih => simpa [Json.isStr] using ih
  · intro reply
    cases funcs with
    | nil => cases reply <;> simp [generate_docstrings_in_batch]
    | cons f fs =>
      cases reply with
      | error e => simp [generate_docstrings_in_batch]
      | ok j =>
        cases j with
        | jarr elems =>
          by_cases hlen : elems.length = fs.length + 1
          · simp [generate_docstrings_in_batch, hlen]
          · simp [generate_docstrings_in_batch, hlen]
        | jstr s2 => simp [generate_docstrings_in_batch]
        | jnum n => simp [generate_docstrings_in_batch]
        | jother => simp [generate_docstrings_in_batch]

/-! ## Helper lemmas about close, the index operations and the task -/

/-- close calls itself while the driver attribute is set, so with the
driver set it consumes the whole recursion budget and raises. -/
theorem close_always_raises (fuel : Nat) :
    KnowledgeGraphManager.close true fuel = .error .recursionError := by
  induction fuel with
  | zero => rfl
  | succ n ih => simpa [KnowledgeGraphManager.close] using ih

/-- Merging a key the filter rejects does not change the filtered list. -/
theorem filter_mergeKey {α : Type} [DecidableEq α] (p : α → Bool) (k : α)
    (l : List α) (hk : p k = false) :
    (mergeKey k l).filter p = l.filter p := by
  unfold mergeKey
  split
  · rfl
  · simp [List.filter_append, hk]

/-- Clearing a data source removes everything add_file_node added for
it. -/
theorem kgClear_add_file (ds fp : String) (g : KG) :
    kgClear ds (add_file_node ds fp g) = kgClear ds g := by
  simp only [kgClear, add_file_node]
  congr 1
  exact filter_mergeKey _ _ _ (by simp)

/-- Clearing a data source removes everything add_function_node added
for it. -/
theorem kgClear_add_function (ds fp fn : String) (g : KG) :
    kgClear ds (add_function_node ds fp fn g) = kgClear ds g := by
  simp only [kgClear, add_function_node]
  congr 1
  · exact filter_mergeKey _ _ _ (by simp)
  · exact filter_mergeKey _ _ _ (by simp)
  · exact filter_mergeKey _ _ _ (by simp)

/-- Clearing a data source removes everything the population loop wrote
for it. -/
theorem kgClear_populateKG (ds : String) (fns : List FnData) (g : KG) :
    kgClear ds (populateKG ds fns g) = kgClear ds g := by
  induction fns generalizing g with
  | nil => rfl
  | cons f fs ih =>
    show kgClear ds (populateKG ds fs _) = _
    rw [ih, kgClear_add_function, kgClear_add_file]

/-- Clearing twice is clearing once. -/
theorem kgClear_idem (ds : String) (g : KG) :
    kgClear ds (kgClear ds g) = kgClear ds g := by
  simp only [kgClear]
  congr 1 <;> simp [List.filter_filter]

/-- Replacing in place the records of a namespace leaves the other
namespaces of the index untouched. -/
theorem filter_map_replace (ns : String) (r : VRec) (l : VDB) :
    vdbClear ns
      (l.map (fun p => if p.1 = ns && p.2.id = r.id then (ns, r) else p))
      = vdbClear ns l := by
  induction l with
  | nil => rfl
  | cons p ps ih =>
    by_cases h1 : p.1 = ns
    · by_cases h2 : p.2.id = r.id
      · simpa [vdbClear, List.filter_cons, h1, h2] using ih
      · simpa [vdbClear, List.filter_cons, h1, h2] using ih
    · simpa [vdbClear, List.filter_cons, h1] using ih

/-- Clearing a namespace removes whatever one upsert wrote into it. -/
theorem vdbClear_upsert (ns : String) (r : VRec) (st : VDB) :
    vdbClear ns (vdbUpsert ns r st) = vdbClear ns st := by
  unfold vdbUpsert
  split
  · exact filter_map_replace ns r st
  · simp [vdbClear, List.filter_append]

/-- Clearing a namespace removes whatever a bulk upsert wrote into it. -/
theorem vdbClear_upsertMany (ns : String) (rs : List VRec) (st : VDB) :
    vdbClear ns (vdbUpsertMany ns rs st) = vdbClear ns st := by
  induction rs generalizing st with
  | nil => rfl
  | cons r rest ih =>
    show vdbClear ns (vdbUpsertMany ns rest (vdbUpsert ns r st)) = _
    rw [ih, vdbClear_upsert]

/-- Clearing a namespace removes whatever the batch loop wrote into
it. -/
theorem vdbClear_embedBatchLoop (ns : String) (embedOk : Nat → Bool)
    (batches : List (List (String × VMeta))) (i : Nat) (st : VDB) :
    vdbClear ns (embedBatchLoop ns embedOk batches i st) = vdbClear ns st := by
  induction batches generalizing i st with
  | nil => rfl
  | cons b rest ih =>
    show vdbClear ns (embedBatchLoop ns embedOk rest (i + 1) _) = _
    rw [ih]
    split
    · rw [vdbClear_upsertMany]
    · rfl

/-- Clearing a namespace removes whatever one whole bulk-write phase
wrote into it. -/
theorem vdbClear_store (bs : Nat) (embedOk : Nat → Bool)
    (chunks : List String) (metas : List VMeta) (ns : String) (st : VDB) :
    vdbClear ns (generate_and_store_embeddings bs embedOk chunks metas ns st)
      = vdbClear ns st := by
  unfold generate_and_store_embeddings
  exact vdbClear_embedBatchLoop ns embedOk _ 0 st

/-- Clearing a namespace twice is clearing it once. -/
theorem vdbClear_idem (ns : String) (st : VDB) :
    vdbClear ns (vdbClear ns st) = vdbClear ns st := by
  simp [vdbClear, List.filter_filter]

/-- When every phase-1 and phase-2 collaborator behaves, the try body
completes and ends in the success state. -/
theorem tryBody_success (ds rn : String) (found stale : Bool)
    (files : List PyFile) (flag : Bool) (reply : ModelReply) (bs : Nat)
    (embedOk : Nat → Bool) (kg0 : KG) (vdb0 : VDB) :
    tryBody (Env.mk ds found stale true true (some rn) true files flag
        reply bs embedOk kg0 vdb0)
    = (successBodyOf (Env.mk ds found stale true true (some rn) true files
        flag reply bs embedOk kg0 vdb0), .ok ()) := rfl

/-- When the data source exists and the graph manager was constructed,
the finally block calls close, close raises RecursionError, that
exception replaces the pending outcome, the snapshot directory is left
as the body left it and the driver is never released. -/
theorem process_found (env : Env) (recLimit : Nat)
    (hf : env.dataSourceFound = true)
    (hkg : (tryBody env).1.kgInited = true) :
    process_data_source_for_ai env recLimit =
      { statusWritten :=
          (match (tryBody env).2 with
            | .ok _ => (tryBody env).1.statusWritten
            | .error _ => some .failed)
        outcome := .raised .recursionError
        snapshotRemains := (tryBody env).1.snapshotOnDisk
        driverClosed := false
        kg := (tryBody env).1.kg
        vdb := (tryBody env).1.vdb
        docGenCalled := (tryBody env).1.docGenCalled } := by
  cases h2 : (tryBody env).2 with
  | ok u =>
    simp [process_data_source_for_ai, hf, h2, close_always_raises, hkg]
  | error e =>
    simp [process_data_source_for_ai, hf, h2, close_always_raises, hkg]

/-- C1: on a fully successful run, the guaranteed-cleanup block does
not clean up: close consumes the recursion budget and raises, so for
every recursion limit the structural-index driver is never released,
the rmtree line is never reached and the snapshot directory remains on
disk, while the task ends by raising RecursionError. -/
theorem c1_cleanup_block_fails (recLimit : Nat) :
    KnowledgeGraphManager.close true recLimit = .error .recursionError
    ∧ (process_data_source_for_ai happyEnv recLimit).snapshotRemains = true
    ∧ (process_data_source_for_ai happyEnv recLimit).driverClosed = false
    ∧ (process_data_source_for_ai happyEnv recLimit).outcome
      = .raised .recursionError := by
  refine ⟨close_always_raises recLimit, ?_, ?_, ?_⟩ <;>
    rw [process_found happyEnv recLimit rfl rfl] <;> rfl

/-- C2: when the clone phase raises, the boundary handler does set the
status to failed and re-raise, but the close call inside the finally
block raises RecursionError, which replaces the original error, so the
job queue never receives the clone error. -/
theorem c2_reraised_error_replaced (recLimit : Nat) :
    (tryBody cloneFailEnv).2 = .error .cloneError
    ∧ (process_data_source_for_ai cloneFailEnv recLimit).statusWritten
      = some .failed
    ∧ (process_data_source_for_ai cloneFailEnv recLimit).outcome
      = .raised .recursionError
    ∧ (process_data_source_for_ai cloneFailEnv recLimit).outcome
      ≠ .raised .cloneError := by
  refine ⟨rfl, ?_, ?_, ?_⟩
  · rw [process_found cloneFailEnv recLimit rfl rfl] <;> rfl
  · rw [process_found cloneFailEnv recLimit rfl rfl] <;> rfl
  · rw [process_found cloneFailEnv recLimit rfl rfl] <;> decide

/-- Re-running the try body on the index states a first run left
behind reproduces those states exactly: each path either leaves the
indexes alone, only clears them, or clears and repopulates them
deterministically. -/
theorem tryBody_idem (ds : String) (found stale kgi vsi : Bool)
    (rfn : Option String) (cl : Bool) (files : List PyFile) (flag : Bool)
    (reply : ModelReply) (bs : Nat) (eok : Nat → Bool) (kg0 : KG)
    (vdb0 : VDB) :
    (tryBody (Env.mk ds found stale kgi vsi rfn cl files flag reply bs eok
      (tryBody (Env.mk ds found stale kgi vsi rfn cl files flag reply bs eok
        kg0 vdb0)).1.kg
      (tryBody (Env.mk ds found stale kgi vsi rfn cl files flag reply bs eok
        kg0 vdb0)).1.vdb)).1.kg
      = (tryBody (Env.mk ds found stale kgi vsi rfn cl files flag reply bs
        eok kg0 vdb0)).1.kg
    ∧ (tryBody (Env.mk ds found stale kgi vsi rfn cl files flag reply bs eok
      (tryBody (Env.mk ds found stale kgi vsi rfn cl files flag reply bs eok
        kg0 vdb0)).1.kg
      (tryBody (Env.mk ds found stale kgi vsi rfn cl files flag reply bs eok
        kg0 vdb0)).1.vdb)).1.vdb
      = (tryBody (Env.mk ds found stale kgi vsi rfn cl files flag reply bs
        eok kg0 vdb0)).1.vdb := by
  cases kgi with
  | false => exact ⟨rfl, rfl⟩
  | true =>
  cases vsi with
  | false => exact ⟨rfl, rfl⟩
  | true =>
  cases rfn with
  | none => exact ⟨kgClear_idem ds kg0, vdbClear_idem ds vdb0⟩
  | some rn =>
  cases cl with
  | false => exact ⟨kgClear_idem ds kg0, vdbClear_idem ds vdb0⟩
  | true =>
  have hkg : kgClear ds ((tryBody (Env.mk ds found stale true true (some rn)
      true files flag reply bs eok kg0 vdb0)).1.kg) = kgClear ds kg0 := by
    show kgClear ds (populateKG ds (finalFnsOf (Env.mk ds found stale true
      true (some rn) true files flag reply bs eok kg0 vdb0))
      (kgClear ds kg0)) = kgClear ds kg0
    rw [kgClear_populateKG, kgClear_idem]
  have hvdb : vdbClear ds ((tryBody (Env.mk ds found stale true true
      (some rn) true files flag reply bs eok kg0 vdb0)).1.vdb)
      = vdbClear ds vdb0 := by
    show vdbClear ds (if !((finalFnsOf (Env.mk ds found stale true true
        (some rn) true files flag reply bs eok kg0 vdb0)).map
          mkChunk).isEmpty then
      generate_and_store_embeddings bs eok
        ((finalFnsOf (Env.mk ds found stale true true (some rn) true files
          flag reply bs eok kg0 vdb0)).map mkChunk)
        ((finalFnsOf (Env.mk ds found stale true true (some rn) true files
          flag reply bs eok kg0 vdb0)).map metaOf)
        ds (vdbClear ds vdb0)
      else vdbClear ds vdb0) = vdbClear ds vdb0
    split
    · rw [vdbClear_store, vdbClear_idem]
    · rw [vdbClear_idem]
  constructor
  · show populateKG ds (finalFnsOf (Env.mk ds found stale true true (some rn)
      true files flag reply bs eok kg0 vdb0))
      (kgClear ds ((tryBody (Env.mk ds found stale true true (some rn) true
        files flag reply bs eok kg0 vdb0)).1.kg))
      = populateKG ds (finalFnsOf (Env.mk ds found stale true true (some rn)
        true files flag reply bs eok kg0 vdb0)) (kgClear ds kg0)
    rw [hkg]
  · show (if !((finalFnsOf (Env.mk ds found stale true true (some rn) true
        files flag reply bs eok kg0 vdb0)).map mkChunk).isEmpty then
      generate_and_store_embeddings bs eok
        ((finalFnsOf (Env.mk ds found stale true true (some rn) true files
          flag reply bs eok kg0 vdb0)).map mkChunk)
        ((finalFnsOf (Env.mk ds found stale true true (some rn) true files
          flag reply bs eok kg0 vdb0)).map metaOf)
        ds (vdbClear ds ((tryBody (Env.mk ds found stale true true (some rn)
          true files flag reply bs eok kg0 vdb0)).1.vdb))
      else vdbClear ds ((tryBody (Env.mk ds found stale true true (some rn)
        true files flag reply bs eok kg0 vdb0)).1.vdb))
      = (if !((finalFnsOf (Env.mk ds found stale true true (some rn) true
          files flag reply bs eok kg0 vdb0)).map mkChunk).isEmpty then
        generate_and_store_embeddings bs eok
          ((finalFnsOf (Env.mk ds found stale true true (some rn) true files
            flag reply bs eok kg0 vdb0)).map mkChunk)
          ((finalFnsOf (Env.mk ds found stale true true (some rn) true files
            flag reply bs eok kg0 vdb0)).map metaOf)
          ds (vdbClear ds vdb0)
        else vdbClear ds vdb0)
    rw [hvdb]

/-- The index states one task invocation leaves behind: untouched when
the data source is missing, and whatever the try body produced
otherwise — the boundary handler and the finally block never touch the
indexes. -/
theorem process_indexes (env : Env) (recLimit : Nat) :
    (process_data_source_for_ai env recLimit).kg
      = (if env.dataSourceFound then (tryBody env).1.kg else env.kg0)
    ∧ (process_data_source_for_ai env recLimit).vdb
      = (if env.dataSourceFound then (tryBody env).1.vdb else env.vdb0) := by
  cases hf : env.dataSourceFound with
  | false => simp [process_data_source_for_ai, hf]
  | true =>
    cases h2 : (tryBody env).2 with
    | ok u =>
      cases hki : (tryBody env).1.kgInited with
      | false => simp [process_data_source_for_ai, hf, h2, hki]
      | true =>
        cases hc : KnowledgeGraphManager.close true recLimit with
        | ok v => simp [process_data_source_for_ai, hf, h2, hki, hc]
        | error e => simp [process_data_source_for_ai, hf, h2, hki, hc]
    | error e =>
      cases hki : (tryBody env).1.kgInited with
      | false => simp [process_data_source_for_ai, hf, h2, hki]
      | true =>
        cases hc : KnowledgeGraphManager.close true recLimit with
        | ok v => simp [process_data_source_for_ai, hf, h2, hki, hc]
        | error e2 => simp [process_data_source_for_ai, hf, h2, hki, hc]

/-- C4: running the ingestion job a second time on an unchanged
repository, starting from the index states the first run left behind,
reproduces those states exactly — every run first clears both indexes
for the repository identity, the structural writes are merge-on-key
upserts and the semantic records are keyed by the deterministic id
repo_id:file_path:entity_name — so node, edge and record counts are
identical. -/
theorem c4_reingestion_idempotent (env : Env) (recLimit : Nat) :
    (process_data_source_for_ai { env with
        kg0 := (process_data_source_for_ai env recLimit).kg
        vdb0 := (process_data_source_for_ai env recLimit).vdb }
      recLimit).kg = (process_data_source_for_ai env recLimit).kg
    ∧ (process_data_source_for_ai { env with
        kg0 := (process_data_source_for_ai env recLimit).kg
        vdb0 := (process_data_source_for_ai env recLimit).vdb }
      recLimit).vdb = (process_data_source_for_ai env recLimit).vdb
    ∧ (process_data_source_for_ai { env with
        kg0 := (process_data_source_for_ai env recLimit).kg
        vdb0 := (process_data_source_for_ai env recLimit).vdb }
      recLimit).kg.files.length
      = (process_data_source_for_ai env recLimit).kg.files.length
    ∧ (process_data_source_for_ai { env with
        kg0 := (process_data_source_for_ai env recLimit).kg
        vdb0 := (process_data_source_for_ai env recLimit).vdb }
      recLimit).kg.funcs.length
      = (process_data_source_for_ai env recLimit).kg.funcs.length
    ∧ (process_data_source_for_ai { env with
        kg0 := (process_data_source_for_ai env recLimit).kg
        vdb0 := (process_data_source_for_ai env recLimit).vdb }
      recLimit).kg.defines.length
      = (process_data_source_for_ai env recLimit).kg.defines.length
    ∧ (process_data_source_for_ai { env with
        kg0 := (process_data_source_for_ai env recLimit).kg
        vdb0 := (process_data_source_for_ai env recLimit).vdb }
      recLimit).vdb.length
      = (process_data_source_for_ai env recLimit).vdb.length := by
  suffices hs : (process_data_source_for_ai { env with
        kg0 := (process_data_source_for_ai env recLimit).kg
        vdb0 := (process_data_source_for_ai env recLimit).vdb }
      recLimit).kg = (process_data_source_for_ai env recLimit).kg
    ∧ (process_data_source_for_ai { env with
        kg0 := (process_data_source_for_ai env recLimit).kg
        vdb0 := (process_data_source_for_ai env recLimit).vdb }
      recLimit).vdb = (process_data_source_for_ai env recLimit).vdb by
    exact ⟨hs.1, hs.2, by rw [hs.1], by rw [hs.1], by rw [hs.1],
      by rw [hs.2]⟩
  obtain ⟨ds, found, stale, kgi, vsi, rfn, cl, files, flag, reply, bs, eok,
    kg0, vdb0⟩ := env
  cases found with
  | false => exact ⟨rfl, rfl⟩
  | true =>
    have hA := process_indexes (Env.mk ds true stale kgi vsi rfn cl files
      flag reply bs eok kg0 vdb0) recLimit
    have hA1 : (process_data_source_for_ai (Env.mk ds true stale kgi vsi rfn
        cl files flag reply bs eok kg0 vdb0) recLimit).kg
        = (tryBody (Env.mk ds true stale kgi vsi rfn cl files flag reply bs
          eok kg0 vdb0)).1.kg := by simpa using hA.1
    have hA2 : (process_data_source_for_ai (Env.mk ds true stale kgi vsi rfn
        cl files flag reply bs eok kg0 vdb0) recLimit).vdb
        = (tryBody (Env.mk ds true stale kgi vsi rfn cl files flag reply bs
          eok kg0 vdb0)).1.vdb := by simpa using hA.2
    rw [hA1, hA2]
    have hB := process_indexes (Env.mk ds true stale kgi vsi rfn cl files
      flag reply bs eok
      (tryBody (Env.mk ds true stale kgi vsi rfn cl files flag reply bs eok
        kg0 vdb0)).1.kg
      (tryBody (Env.mk ds true stale kgi vsi rfn cl files flag reply bs eok
        kg0 vdb0)).1.vdb) recLimit
    have hB1 := hB.1
    have hB2 := hB.2
    simp only [if_pos] at hB1 hB2
    rw [hB1, hB2]
    exact tryBody_idem ds true stale kgi vsi rfn cl files flag reply bs eok
      kg0 vdb0

/-- The batch loop is the fold of the bulk upsert over exactly the
batches whose embedding call succeeds; failed batches contribute
nothing and do not stop the loop. -/
theorem embedBatchLoop_eq_foldl (ds : String) (eok : Nat → Bool)
    (batches : List (List (String × VMeta))) (i : Nat) (st : VDB) :
    embedBatchLoop ds eok batches i st
      = ((List.enumFrom i batches).filter (fun p => eok p.1)).foldl
          (fun s p => vdbUpsertMany ds (p.2.map (mkVRec ds)) s) st := by
  induction batches generalizing i st with
  | nil => rfl
  | cons b rest ih =>
    by_cases heok : eok i = true
    · simp [embedBatchLoop, List.enumFrom, List.filter_cons, heok, ih]
    · simp [embedBatchLoop, List.enumFrom, List.filter_cons,
        Bool.eq_false_iff.mpr heok, ih]

/-- Membership in the index after one upsert: the query hits either a
pre-existing record or the record just upserted. -/
theorem vdbHas_upsert_iff (ns : String) (r : VRec) (st : VDB)
    (ns2 id : String) :
    vdbHas (vdbUpsert ns r st) ns2 id = true
      ↔ (vdbHas st ns2 id = true ∨ (ns2 = ns ∧ id = r.id)) := by
  unfold vdbUpsert
  split
  case isTrue hhas =>
    simp only [vdbHas, List.any_eq_true, List.mem_map, Bool.and_eq_true,
      decide_eq_true_eq] at hhas ⊢
    constructor
    · rintro ⟨x, ⟨p, hp, rfl⟩, hx1, hx2⟩
      by_cases hc : p.1 = ns ∧ p.2.id = r.id
      · rw [if_pos hc] at hx1 hx2
        exact Or.inr ⟨hx1.symm, hx2.symm⟩
      · rw [if_neg hc] at hx1 hx2
        exact Or.inl ⟨p, hp, hx1, hx2⟩
    · rintro (⟨p, hp, h1, h2⟩ | ⟨h1, h2⟩)
      · by_cases hc : p.1 = ns ∧ p.2.id = r.id
        · obtain ⟨hc1, hc2⟩ := hc
          refine ⟨(ns, r), ⟨p, hp, if_pos ⟨hc1, hc2⟩⟩, ?_, ?_⟩
          · rw [← h1, hc1]
          · rw [← h2, hc2]
        · exact ⟨p, ⟨p, hp, if_neg hc⟩, h1, h2⟩
      · obtain ⟨p0, hp0, h01, h02⟩ := hhas
        refine ⟨(ns, r), ⟨p0, hp0, if_pos ⟨h01, h02⟩⟩, ?_, ?_⟩
        · exact h1.symm
        · exact h2.symm
  case isFalse hhas =>
    simp only [vdbHas, List.any_append, List.any_cons, List.any_nil,
      Bool.or_false, Bool.or_eq_true, Bool.and_eq_true, decide_eq_true_eq]
    constructor <;> rintro (h | ⟨h1, h2⟩)
    · exact Or.inl h
    · exact Or.inr ⟨h1.symm, h2.symm⟩
    · exact Or.inl h
    · exact Or.inr ⟨h1.symm, h2.symm⟩

/-- Membership in the index after a bulk upsert. -/
theorem vdbHas_upsertMany_iff (ns : String) (rs : List VRec) (st : VDB)
    (ns2 id : String) :
    vdbHas (vdbUpsertMany ns rs st) ns2 id = true
      ↔ (vdbHas st ns2 id = true ∨ (ns2 = ns ∧ ∃ r ∈ rs, id = r.id)) := by
  induction rs generalizing st with
  | nil => simp [vdbUpsertMany]
  | cons r rest ih =>
    show vdbHas (vdbUpsertMany ns rest (vdbUpsert ns r st)) ns2 id = true ↔ _
    rw [ih, vdbHas_upsert_iff]
    constructor
    · rintro ((h | ⟨h1, h2⟩) | ⟨h1, r2, hr2, h2⟩)
      · exact Or.inl h
      · exact Or.inr ⟨h1, r, List.mem_cons_self r rest, h2⟩
      · exact Or.inr ⟨h1, r2, List.mem_cons_of_mem r hr2, h2⟩
    · rintro (h | ⟨h1, r2, hr2, h2⟩)
      · exact Or.inl (Or.inl h)
      · rcases List.mem_cons.mp hr2 with heq | hmem
        · exact Or.inl (Or.inr ⟨h1, heq ▸ h2⟩)
        · exact Or.inr ⟨h1, r2, hmem, h2⟩

/-- Membership in the index after folding the bulk upsert over a list
of enumerated batches. -/
theorem vdbHas_batchFold_iff (ds : String)
    (l : List (Nat × List (String × VMeta))) (st : VDB) (ns id : String) :
    vdbHas (l.foldl (fun s p => vdbUpsertMany ds (p.2.map (mkVRec ds)) s)
        st) ns id = true
      ↔ (vdbHas st ns id = true
          ∨ (ns = ds ∧ ∃ p ∈ l, ∃ q ∈ p.2, id = vectorId ds q.2)) := by
  induction l generalizing st with
  | nil => simp
  | cons p ps ih =>
    rw [List.foldl_cons, ih, vdbHas_upsertMany_iff]
    constructor
    · rintro ((h | ⟨h1, r, hr, h2⟩) | ⟨h1, p2, hp2, q, hq, h2⟩)
      · exact Or.inl h
      · obtain ⟨q, hq, rfl⟩ := List.mem_map.mp hr
        exact Or.inr ⟨h1, p, List.mem_cons_self p ps, q, hq, h2⟩
      · exact Or.inr ⟨h1, p2, List.mem_cons_of_mem p hp2, q, hq, h2⟩
    · rintro (h | ⟨h1, p2, hp2, q, hq, h2⟩)
      · exact Or.inl (Or.inl h)
      · rcases List.mem_cons.mp hp2 with heq | hmem
        · subst heq
          exact Or.inl (Or.inr ⟨h1, mkVRec ds q,
            List.mem_map.mpr ⟨q, hq, rfl⟩, h2⟩)
        · exact Or.inr ⟨h1, p2, hmem, q, hq, h2⟩

/-- C7: the bulk-write phase equals the fold of the per-batch upsert
over exactly the batches whose embedding call succeeded — a failed
batch is skipped while every later batch is still processed — and a
record is present afterwards exactly when it was present before or
belongs to a successful batch. -/
theorem c7_failed_batches_skipped_rest_processed (bs : Nat)
    (eok : Nat → Bool) (chunks : List String) (metas : List VMeta)
    (ds : String) (st : VDB) :
    generate_and_store_embeddings bs eok chunks metas ds st
      = ((List.enumFrom 0 (chunksOf bs (chunks.zip metas))).filter
          (fun p => eok p.1)).foldl
          (fun s p => vdbUpsertMany ds (p.2.map (mkVRec ds)) s) st
    ∧ ∀ ns id,
        vdbHas (generate_and_store_embeddings bs eok chunks metas ds st)
            ns id = true
          ↔ (vdbHas st ns id = true
              ∨ (ns = ds ∧ ∃ p ∈ (List.enumFrom 0
                  (chunksOf bs (chunks.zip metas))).filter
                    (fun p => eok p.1),
                  ∃ q ∈ p.2, id = vectorId ds q.2)) := by
  have h := embedBatchLoop_eq_foldl ds eok (chunksOf bs (chunks.zip metas))
    0 st
  refine ⟨h, fun ns id => ?_⟩
  rw [show generate_and_store_embeddings bs eok chunks metas ds st
    = embedBatchLoop ds eok (chunksOf bs (chunks.zip metas)) 0 st from rfl]
  rw [h, vdbHas_batchFold_iff]

/-! ## Membership lemmas for the population phase -/

/-- The generated docstring list always has the length of its input. -/
theorem gen_docstrings_length (funcs : List FnData) (reply : ModelReply) :
    (generate_docstrings_in_batch funcs reply).length = funcs.length := by
  cases funcs with
  | nil => simp [generate_docstrings_in_batch]
  | cons f fs =>
    cases reply with
    | error e => simp [generate_docstrings_in_batch]
    | ok j =>
      cases j with
      | jarr elems =>
        by_cases hlen : elems.length = fs.length + 1
        · simp [generate_docstrings_in_batch, hlen]
        · simp [generate_docstrings_in_batch, hlen]
      | jstr s => simp [generate_docstrings_in_batch]
      | jnum n => simp [generate_docstrings_in_batch]
      | jother => simp [generate_docstrings_in_batch]

/-- Merging back the generated docstrings keeps every entity name and
file path in place. -/
theorem applyGeneratedDocs_keys : ∀ (fns : List FnData) (docs : List Json),
    docs.length = fns.length →
    (applyGeneratedDocs fns docs).map (fun f => (f.name, f.file_path))
      = fns.map (fun f => (f.name, f.file_path)) := by
  intro fns
  induction fns with
  | nil => intro docs h; rfl
  | cons f fs ih =>
    intro docs h
    cases docs with
    | nil => simp at h
    | cons d ds2 =>
      have h2 : ds2.length = fs.length := by simpa using h
      exact congrArg (List.cons (f.name, f.file_path)) (ih ds2 h2)

/-- The merged key is a member after a merge. -/
theorem mem_mergeKey_self {α : Type} [DecidableEq α] (k : α) (l : List α) :
    k ∈ mergeKey k l := by
  unfold mergeKey
  split
  · assumption
  · simp

/-- Merging preserves the existing members. -/
theorem mem_mergeKey_of_mem {α : Type} [DecidableEq α] {a : α} (k : α)
    {l : List α} (h : a ∈ l) : a ∈ mergeKey k l := by
  unfold mergeKey
  split
  · exact h
  · exact List.mem_append_left _ h

/-- Function nodes survive the rest of the population loop. -/
theorem populateKG_funcs_mono (ds : String) (fns : List FnData) (g : KG)
    {a : String × String × String} (h : a ∈ g.funcs) :
    a ∈ (populateKG ds fns g).funcs := by
  induction fns generalizing g with
  | nil => exact h
  | cons f fs ih => exact ih _ (mem_mergeKey_of_mem _ h)

/-- Every entity of the population loop ends up as a Function node
keyed by its name, file path and repository identity. -/
theorem populateKG_funcs_mem (ds : String) (fns : List FnData) (g : KG)
    {f : FnData} (h : f ∈ fns) :
    (f.name, f.file_path, ds) ∈ (populateKG ds fns g).funcs := by
  induction fns generalizing g with
  | nil => cases h
  | cons f0 fs ih =>
    rcases List.mem_cons.mp h with rfl | hm
    · exact populateKG_funcs_mono ds fs _ (mem_mergeKey_self _ _)
    · exact ih _ hm

/-- Slicing into batches loses nothing: the slices concatenate back to
the original list. -/
theorem chunksOf_join {α : Type} (bs : Nat) (l : List α) :
    (chunksOf bs l).join = l := by
  induction bs, l using chunksOf.induct with
  | case1 b => simp [chunksOf]
  | case2 l => simp [chunksOf]
  | case3 b x xs ih => simp [chunksOf, ih]

/-- Every member of a list appears in its enumeration. -/
theorem mem_enumFrom_of_mem {α : Type} {a : α} :
    ∀ (l : List α) (n : Nat), a ∈ l → ∃ i, (i, a) ∈ List.enumFrom n l := by
  intro l
  induction l with
  | nil => intro n h; cases h
  | cons x xs ih =>
    intro n h
    rcases List.mem_cons.mp h with rfl | hm
    · exact ⟨n, by simp [List.enumFrom]⟩
    · obtain ⟨i, hi⟩ := ih (n + 1) hm
      exact ⟨i, by simp [List.enumFrom]; exact Or.inr hi⟩

/-- When every batch embedding call succeeds, the bulk-write phase
stores a record under the deterministic vector id of every entity. -/
theorem vdbHas_store_all_ok (bs : Nat) (eok : Nat → Bool)
    (hok : ∀ i, eok i = true) (fns : List FnData) (ds : String) (st : VDB)
    (f2 : FnData) (hf2 : f2 ∈ fns) :
    vdbHas (generate_and_store_embeddings bs eok (fns.map mkChunk)
      (fns.map metaOf) ds st) ds (vectorId ds (metaOf f2)) = true := by
  rw [show generate_and_store_embeddings bs eok (fns.map mkChunk)
    (fns.map metaOf) ds st = embedBatchLoop ds eok
      (chunksOf bs ((fns.map mkChunk).zip (fns.map metaOf))) 0 st from rfl]
  rw [embedBatchLoop_eq_foldl, vdbHas_batchFold_iff]
  rw [List.filter_eq_self.mpr (fun a _ => hok a.1)]
  refine Or.inr ⟨rfl, ?_⟩
  have hq : (mkChunk f2, metaOf f2)
      ∈ (fns.map mkChunk).zip (fns.map metaOf) := by
    rw [List.zip_map']
    exact List.mem_map.mpr ⟨f2, hf2, rfl⟩
  rw [← chunksOf_join bs ((fns.map mkChunk).zip (fns.map metaOf))] at hq
  obtain ⟨b, hb, hqb⟩ := List.mem_join.mp hq
  obtain ⟨i, hib⟩ := mem_enumFrom_of_mem _ 0 hb
  exact ⟨(i, b), hib, (mkChunk f2, metaOf f2), hqb, rfl⟩

/-- Every extracted entity keeps its name and file path through the
docstring merge, whichever branch runs. -/
theorem finalFns_key_mem (env : Env) {fn : FnData}
    (h : fn ∈ extractAll env.files) :
    ∃ f2 ∈ finalFnsOf env,
      f2.name = fn.name ∧ f2.file_path = fn.file_path := by
  have hsplit : fn ∈ withDocsOf env ∨ fn ∈ withoutDocsOf env := by
    by_cases hd : fn.docstring = ""
    · exact Or.inr (List.mem_filter.mpr ⟨h, by simp [hd]⟩)
    · exact Or.inl (List.mem_filter.mpr ⟨h, by simp [hd]⟩)
  unfold finalFnsOf
  split
  · rcases hsplit with h1 | h2
    · exact ⟨fn, List.mem_append_left _ h1, rfl, rfl⟩
    · have hlen : (generate_docstrings_in_batch (withoutDocsOf env)
          env.docReply).length = (withoutDocsOf env).length :=
        gen_docstrings_length _ _
      have hkeys := applyGeneratedDocs_keys (withoutDocsOf env) _ hlen
      have hmem : (fn.name, fn.file_path)
          ∈ (applyGeneratedDocs (withoutDocsOf env)
            (generate_docstrings_in_batch (withoutDocsOf env)
              env.docReply)).map (fun f => (f.name, f.file_path)) := by
        rw [hkeys]
        exact List.mem_map.mpr ⟨fn, h2, rfl⟩
      obtain ⟨f2, hf2, hkey⟩ := List.mem_map.mp hmem
      have hk1 : f2.name = fn.name := congrArg Prod.fst hkey
      have hk2 : f2.file_path = fn.file_path := congrArg Prod.snd hkey
      exact ⟨f2, List.mem_append_right _ hf2, hk1, hk2⟩
  · rcases hsplit with h1 | h2
    · exact ⟨fn, List.mem_append_left _ h1, rfl, rfl⟩
    · exact ⟨fn, List.mem_append_right _ h2, rfl, rfl⟩

/-- A run in a well-behaved environment ends with status indexed, the
cleanup failure of C1, and the cleared-then-repopulated index states. -/
theorem process_good (ds rn : String) (stale : Bool) (files : List PyFile)
    (flag : Bool) (reply : ModelReply) (bs : Nat) (eok : Nat → Bool)
    (kg0 : KG) (vdb0 : VDB) (recLimit : Nat) :
    process_data_source_for_ai
        (goodEnv ds rn stale files flag reply bs eok kg0 vdb0) recLimit
      = { statusWritten := some .indexed
          outcome := .raised .recursionError
          snapshotRemains := true
          driverClosed := false
          kg := populateKG ds
            (finalFnsOf (goodEnv ds rn stale files flag reply bs eok kg0
              vdb0)) (kgClear ds kg0)
          vdb := successVdbOf (goodEnv ds rn stale files flag reply bs eok
            kg0 vdb0)
          docGenCalled := genRunsOf (goodEnv ds rn stale files flag reply
            bs eok kg0 vdb0) } := by
  rw [process_found (goodEnv ds rn stale files flag reply bs eok kg0 vdb0)
    recLimit rfl rfl]
  rfl

/-- Because genai is unbound, every batch of the embedding loop takes
the except path and the loop writes nothing. -/
theorem embedBatchLoop_all_fail (ds : String)
    (batches : List (List (String × VMeta))) (i : Nat) (st : VDB) :
    embedBatchLoop ds genaiEmbedOk batches i st = st := by
  induction batches generalizing i st with
  | nil => rfl
  | cons b rest ih => exact ih (i + 1) st

/-- As the program actually runs, the bulk-write phase leaves the
semantic index untouched: every genai.embed_content call raises
NameError, so every batch is skipped. -/
theorem generate_and_store_embeddings_all_fail (bs : Nat)
    (chunks : List String) (metas : List VMeta) (ds : String) (st : VDB) :
    generate_and_store_embeddings bs genaiEmbedOk chunks metas ds st = st :=
  embedBatchLoop_all_fail ds _ 0 st

/-- The semantic index a successful real run ends with is exactly the
cleared namespace: nothing is ever upserted. -/
theorem successVdbOf_clear (ds rn : String) (stale : Bool)
    (files : List PyFile) (flag : Bool) (bs : Nat) (kg0 : KG)
    (vdb0 : VDB) :
    successVdbOf (goodEnv ds rn stale files flag genaiDocReply bs
      genaiEmbedOk kg0 vdb0) = vdbClear ds vdb0 := by
  unfold successVdbOf
  split
  · exact generate_and_store_embeddings_all_fail _ _ _ _ _
  · rfl

/-- C6: a syntactically invalid (or unreadable) file contributes zero
entities and does not abort the job: the run still commits status
indexed and every entity extracted from the valid files reaches the
structural index — but only the structural index, because genai is
unbound and every embedding batch raises NameError, so the semantic
index stays exactly as cleared and the claimed presence in both
indexes fails. -/
theorem c6_invalid_file_skipped_structural_only (ds rn : String)
    (stale : Bool) (files : List PyFile) (flag : Bool) (bs : Nat)
    (kg0 : KG) (vdb0 : VDB) (recLimit : Nat) :
    (process_data_source_for_ai
        (goodEnv ds rn stale files flag genaiDocReply bs genaiEmbedOk kg0
          vdb0) recLimit).statusWritten = some .indexed
    ∧ (∀ f ∈ files, f.outcome = .syntaxError ∨ f.outcome = .readError →
        fileEntities f = [])
    ∧ (∀ fn ∈ extractAll files,
        (fn.name, fn.file_path, ds) ∈ (process_data_source_for_ai
          (goodEnv ds rn stale files flag genaiDocReply bs genaiEmbedOk
            kg0 vdb0) recLimit).kg.funcs)
    ∧ (process_data_source_for_ai
        (goodEnv ds rn stale files flag genaiDocReply bs genaiEmbedOk kg0
          vdb0) recLimit).vdb = vdbClear ds vdb0 := by
  rw [process_good ds rn stale files flag genaiDocReply bs genaiEmbedOk kg0
    vdb0 recLimit]
  refine ⟨rfl, ?_, ?_, successVdbOf_clear ds rn stale files flag bs kg0
    vdb0⟩
  · rintro f hf (h | h) <;> simp [fileEntities, h]
  · intro fn hfn
    obtain ⟨f2, hf2, hname, hfp⟩ := finalFns_key_mem
      (goodEnv ds rn stale files flag genaiDocReply bs genaiEmbedOk kg0
        vdb0) hfn
    have hmem := populateKG_funcs_mem ds
      (finalFnsOf (goodEnv ds rn stale files flag genaiDocReply bs
        genaiEmbedOk kg0 vdb0)) (kgClear ds kg0) hf2
    rw [hname, hfp] at hmem
    exact hmem

/-- C6 witness: a snapshot with one valid file defining one function
and one syntactically invalid file still commits status indexed, the
invalid file contributes nothing, the valid entity reaches the
structural index, and the semantic namespace holds nothing. -/
theorem c6_witness :
    (process_data_source_for_ai
        (goodEnv "repoA" "owner/repo" false
          [{ relPath := "good.py", outcome := .parsed [rawAdd] },
           { relPath := "bad.py", outcome := .syntaxError }]
          false genaiDocReply 100 genaiEmbedOk KG.empty [])
        1000).statusWritten = some .indexed
    ∧ fileEntities { relPath := "bad.py", outcome := .syntaxError } = []
    ∧ ("add", "good.py", "repoA") ∈ (process_data_source_for_ai
        (goodEnv "repoA" "owner/repo" false
          [{ relPath := "good.py", outcome := .parsed [rawAdd] },
           { relPath := "bad.py", outcome := .syntaxError }]
          false genaiDocReply 100 genaiEmbedOk KG.empty [])
        1000).kg.funcs
    ∧ (process_data_source_for_ai
        (goodEnv "repoA" "owner/repo" false
          [{ relPath := "good.py", outcome := .parsed [rawAdd] },
           { relPath := "bad.py", outcome := .syntaxError }]
          false genaiDocReply 100 genaiEmbedOk KG.empty [])
        1000).vdb = vdbClear "repoA" [] := by
  have h := c6_invalid_file_skipped_structural_only "repoA" "owner/repo"
    false [{ relPath := "good.py", outcome := .parsed [rawAdd] },
      { relPath := "bad.py", outcome := .syntaxError }]
    false 100 KG.empty [] 1000
  exact ⟨h.1, h.2.1 { relPath := "bad.py", outcome := .syntaxError }
      (by simp) (Or.inl rfl),
    h.2.2.1 fnAdd (List.mem_cons_self _ _), h.2.2.2⟩

/-- C9: the docstring-generation branch runs exactly when the
configuration flag is on and at least one entity lacks documentation;
with the flag off no model call is made, the final entity list is the
two unchanged partitions, and every entity lacking documentation is
written to the structural index carrying its empty docstring — but to
the structural index only, since genai is unbound and every embedding
batch raises NameError, leaving the semantic namespace exactly
cleared. -/
theorem c9_flag_gating_structural_only (ds rn : String) (stale : Bool)
    (files : List PyFile) (flag : Bool) (bs : Nat) (kg0 : KG) (vdb0 : VDB)
    (recLimit : Nat) :
    (process_data_source_for_ai
        (goodEnv ds rn stale files flag genaiDocReply bs genaiEmbedOk kg0
          vdb0) recLimit).docGenCalled
      = (flag && !((extractAll files).filter
          (fun f => f.docstring = "")).isEmpty)
    ∧ (flag = false →
        finalFnsOf (goodEnv ds rn stale files flag genaiDocReply bs
            genaiEmbedOk kg0 vdb0)
          = withDocsOf (goodEnv ds rn stale files flag genaiDocReply bs
              genaiEmbedOk kg0 vdb0)
            ++ withoutDocsOf (goodEnv ds rn stale files flag genaiDocReply
              bs genaiEmbedOk kg0 vdb0)
        ∧ ∀ fn ∈ withoutDocsOf (goodEnv ds rn stale files flag
            genaiDocReply bs genaiEmbedOk kg0 vdb0),
            fn.docstring = ""
            ∧ (fn.name, fn.file_path, ds) ∈ (process_data_source_for_ai
                (goodEnv ds rn stale files flag genaiDocReply bs
                  genaiEmbedOk kg0 vdb0) recLimit).kg.funcs)
    ∧ (process_data_source_for_ai
        (goodEnv ds rn stale files flag genaiDocReply bs genaiEmbedOk kg0
          vdb0) recLimit).vdb = vdbClear ds vdb0 := by
  rw [process_good ds rn stale files flag genaiDocReply bs genaiEmbedOk kg0
    vdb0 recLimit]
  refine ⟨rfl, ?_, successVdbOf_clear ds rn stale files flag bs kg0 vdb0⟩
  rintro rfl
  refine ⟨rfl, ?_⟩
  intro fn hfn
  have hdoc : fn.docstring = "" := by
    have := (List.mem_filter.mp hfn).2
    simpa using this
  have hfin : fn ∈ finalFnsOf (goodEnv ds rn stale files false
      genaiDocReply bs genaiEmbedOk kg0 vdb0) :=
    List.mem_append_right _ hfn
  exact ⟨hdoc, populateKG_funcs_mem ds _ (kgClear ds kg0) hfin⟩

/-- C9 witness: with the flag off and one entity lacking documentation,
the model is not called, the entity reaches the structural index with
its empty docstring, and the semantic namespace holds nothing. -/
theorem c9_witness :
    (process_data_source_for_ai
        (goodEnv "repoA" "owner/repo" false
          [{ relPath := "good.py", outcome := .parsed [rawAdd] }]
          false genaiDocReply 100 genaiEmbedOk KG.empty [])
        1000).docGenCalled = false
    ∧ fnAdd.docstring = ""
    ∧ ("add", "good.py", "repoA") ∈ (process_data_source_for_ai
        (goodEnv "repoA" "owner/repo" false
          [{ relPath := "good.py", outcome := .parsed [rawAdd] }]
          false genaiDocReply 100 genaiEmbedOk KG.empty [])
        1000).kg.funcs
    ∧ (process_data_source_for_ai
        (goodEnv "repoA" "owner/repo" false
          [{ relPath := "good.py", outcome := .parsed [rawAdd] }]
          false genaiDocReply 100 genaiEmbedOk KG.empty [])
        1000).vdb = vdbClear "repoA" [] := by
  have h := c9_flag_gating_structural_only "repoA" "owner/repo" false
    [{ relPath := "good.py", outcome := .parsed [rawAdd] }]
    false 100 KG.empty [] 1000
  have hmem : fnAdd ∈ withoutDocsOf (goodEnv "repoA" "owner/repo" false
      [{ relPath := "good.py", outcome := .parsed [rawAdd] }]
      false genaiDocReply 100 genaiEmbedOk KG.empty []) :=
    List.mem_cons_self _ _
  have h2 := (h.2.1 rfl).2 fnAdd hmem
  exact ⟨h.1, h2.1, h2.2, h.2.2⟩

end Reploit
